import Mathlib

/-!
Verification of the AI-Solutions dashboard aggregation pipeline.

The repository consists of three near-duplicate Python scripts
(main.py, dashboard.py, ai_solutions_sales.py) that load a flat table of
web-log records and compute group-by aggregates with pandas.  This file
gives a shallow embedding of the table operations those scripts perform
and proves or refutes the specified properties.

Modelling conventions:
* a data frame is a list of rows (structure LogRecord); the Time and Hour
  columns are never consulted by the verified properties and are omitted;
* Revenue is modelled as a rational number (the claims are algebraic,
  never about binary floating-point rounding);
* a pandas mean over an empty selection yields NaN; this degenerate value
  is modelled as none of an Option;
* Series.idxmax raises ValueError on an empty series; fallible operations
  are modelled in Except;
* value counts follow pandas Series.value_counts: keys are collected in
  order of first occurrence, counted, and stably sorted descending by
  count, so tied counts stay in first-occurrence order; Series.idxmax
  then returns the first maximal entry;
* group-by keys are modelled in first-occurrence order; pandas emits them
  sorted by key, a permutation that no verified property observes.
-/

/-- One row of the input table ai_solutions_sales_data.csv, with the
columns the verified claims consult. -/
structure LogRecord where
  url : String
  country : String
  status : Nat
  product : String
  revenue : ℚ
deriving DecidableEq

/-- The RequestType categorisation applied per row in all three scripts:
an if-chain of exact URL matches with a catch-all Other branch. -/
def requestType (x : String) : String :=
  if x = "/aiassistant.php" then "AI Assistant"
  else if x = "/scheduledemo.php" then "Scheduled Demo"
  else if x = "/event.php" then "Promotional Event"
  else if x = "/job.php" ∨ x = "/prototype.php" then "Job Request"
  else "Other"

/-- Distinct elements in order of first occurrence (the key order a
pandas hash table produces), accumulator of already-seen keys. -/
def uniqAux [DecidableEq α] (seen : List α) : List α → List α
  | [] => []
  | a :: l => if a ∈ seen then uniqAux seen l else a :: uniqAux (a :: seen) l

/-- Distinct elements of a list in order of first occurrence. -/
def uniq [DecidableEq α] (l : List α) : List α := uniqAux [] l

/-- Number of occurrences of a key in a list. -/
def countKey [DecidableEq α] (k : α) (l : List α) : Nat :=
  (l.filter (fun x => decide (x = k))).length

/-- Raw value counts: each distinct value, in first-occurrence order,
paired with its number of occurrences. -/
def valueCountsRaw [DecidableEq α] (l : List α) : List (α × Nat) :=
  (uniq l).map (fun k => (k, countKey k l))

/-- Stable insertion into a list sorted descending by count: the new
entry is placed before the first entry whose count does not exceed it,
so entries inserted later never overtake earlier ones of equal count. -/
def insertDesc (x : α × Nat) : List (α × Nat) → List (α × Nat)
  | [] => [x]
  | y :: l => if y.2 ≤ x.2 then x :: y :: l else y :: insertDesc x l

/-- Stable insertion sort, descending by count. -/
def sortDescByCount : List (α × Nat) → List (α × Nat)
  | [] => []
  | x :: l => insertDesc x (sortDescByCount l)

/-- pandas Series.value_counts: per-value counts sorted descending by
count; the sort is stable, so tied counts remain in first-occurrence
order. -/
def valueCounts [DecidableEq α] (l : List α) : List (α × Nat) :=
  sortDescByCount (valueCountsRaw l)

/-- pandas Series.idxmax: the index of the first maximal value; raises
ValueError on an empty series. -/
def idxmax (l : List (α × Nat)) : Except String α :=
  match l with
  | [] => Except.error "attempt to get argmax of an empty sequence"
  | x :: xs => Except.ok (xs.foldl (fun b y => if b.2 < y.2 then y else b) x).1

/-- The positive-revenue restriction df[df['Revenue'] > 0] shared by the
sales aggregates and KPI scalars. -/
def positiveSales (df : List LogRecord) : List LogRecord :=
  df.filter (fun r => decide (0 < r.revenue))

/-- total_revenue = df['Revenue'].sum() (main.py, dashboard.py). -/
def total_revenue (df : List LogRecord) : ℚ :=
  (df.map (fun r => r.revenue)).sum

/-- avg_sale_value = df[df['Revenue'] > 0]['Revenue'].mean(): the mean of
an empty selection is NaN, modelled as none. -/
def avg_sale_value (df : List LogRecord) : Option ℚ :=
  let s := positiveSales df
  if s.isEmpty then none
  else some ((s.map (fun r => r.revenue)).sum / (s.length : ℚ))

/-- top_product = df[df['Revenue'] > 0]['Product'].value_counts().idxmax()
(main.py, dashboard.py): fails on an empty selection. -/
def top_product (df : List LogRecord) : Except String String :=
  idxmax (valueCounts ((positiveSales df).map (fun r => r.product)))

/-- The five job-related pages of dashboard.py and ai_solutions_sales.py. -/
def job_pages : List String :=
  ["/job.php", "/scheduledemo.php", "/aiassistant.php", "/event.php", "/prototype.php"]

/-- job_counts of main.py line 28: value counts of URL over the rows
whose RequestType is Job Request. -/
def job_counts_main (df : List LogRecord) : List (String × Nat) :=
  valueCounts ((df.filter (fun r => decide (requestType r.url = "Job Request"))).map
    (fun r => r.url))

/-- job_counts of dashboard.py lines 29-32 and ai_solutions_sales.py
lines 37-40: value counts of URL over df[df['URL'].isin(job_pages)]. -/
def job_counts_dashboard (df : List LogRecord) : List (String × Nat) :=
  valueCounts ((df.filter (fun r => decide (r.url ∈ job_pages))).map (fun r => r.url))

/-- The recommendation labelling of dashboard.py lines 37-39, applied to
a per-country demo-request count. -/
def demoAction (x : Nat) : String :=
  if 1000 < x then "💡 Webinar"
  else if 500 < x then "📧 Email Campaign"
  else "📄 Translate Page"

/-- Distinct group keys of a data frame under a key function, in
first-occurrence order (pandas groupby emits them sorted by key, a
permutation no verified property observes). -/
def groupKeys (key : LogRecord → String) (df : List LogRecord) : List String :=
  uniq (df.map key)

/-- One row of sales_by_product (main.py lines 35-43, dashboard.py lines
45-51; dashboard.py omits the CountSales column but computes the same
colour rule). -/
structure ProductSales where
  product : String
  totalRevenue : ℚ
  countSales : Nat
  avgSaleValue : ℚ
  color : String
deriving DecidableEq

/-- sales_by_product: group the positive-revenue rows by Product, with
total, count and mean of Revenue, colouring a product green when its
mean is at least the global average sale value.  A comparison against a
NaN global average is false, hence red. -/
def sales_by_product (df : List LogRecord) : List ProductSales :=
  let s := positiveSales df
  let g := avg_sale_value df
  (groupKeys (fun r => r.product) s).map (fun k =>
    let rows := s.filter (fun r => decide (r.product = k))
    let tot := (rows.map (fun r => r.revenue)).sum
    { product := k
      totalRevenue := tot
      countSales := rows.length
      avgSaleValue := tot / (rows.length : ℚ)
      color := match g with
        | some ga => if ga ≤ tot / (rows.length : ℚ) then "green" else "red"
        | none => "red" })

/-- One row of sales_by_country (main.py lines 46-50, dashboard.py lines
54-57). -/
structure CountrySales where
  country : String
  totalRevenue : ℚ
  countSales : Nat
  avgSaleValue : ℚ
deriving DecidableEq

/-- sales_by_country: group the positive-revenue rows by Country with
total, count and mean of Revenue. -/
def sales_by_country (df : List LogRecord) : List CountrySales :=
  let s := positiveSales df
  (groupKeys (fun r => r.country) s).map (fun k =>
    let rows := s.filter (fun r => decide (r.country = k))
    let tot := (rows.map (fun r => r.revenue)).sum
    { country := k
      totalRevenue := tot
      countSales := rows.length
      avgSaleValue := tot / (rows.length : ℚ) })

/-- product_sales of ai_solutions_sales.py line 72:
df.groupby('Product')['Revenue'].sum() over the FULL table, no
positive-revenue restriction.  The subsequent sort_values(ascending=False)
only reorders rows and no verified property observes row order. -/
def product_sales_ais (df : List LogRecord) : List (String × ℚ) :=
  (groupKeys (fun r => r.product) df).map (fun k =>
    (k, ((df.filter (fun r => decide (r.product = k))).map (fun r => r.revenue)).sum))

/-- sales_by_country of ai_solutions_sales.py line 83:
df.groupby('Country')['Revenue'].sum() over the FULL table. -/
def sales_by_country_ais (df : List LogRecord) : List (String × ℚ) :=
  (groupKeys (fun r => r.country) df).map (fun k =>
    (k, ((df.filter (fun r => decide (r.country = k))).map (fun r => r.revenue)).sum))

/-- type_country of main.py line 59 and dashboard.py line 64:
df.groupby(['Country', 'RequestType']).size() in long format, one row
per observed (Country, RequestType) pair. -/
def type_country (df : List LogRecord) : List ((String × String) × Nat) :=
  (uniq (df.map (fun r => (r.country, requestType r.url)))).map (fun k =>
    (k, (df.filter (fun r => decide ((r.country, requestType r.url) = k))).length))

/-- type_country of ai_solutions_sales.py line 61:
df.groupby(['Country', 'RequestType']).size().unstack().fillna(0).
The unstacked table has one row per observed Country and one column per
RequestType observed anywhere in the table; a cell whose (Country,
RequestType) pair matches no record is NaN and fillna turns it into 0. -/
def type_country_unstack (df : List LogRecord) :
    List (String × List (String × Nat)) :=
  let countries := uniq (df.map (fun r => r.country))
  let rtypes := uniq (df.map (fun r => requestType r.url))
  countries.map (fun c => (c, rtypes.map (fun t =>
    (t, (df.filter (fun r => decide (r.country = c ∧ requestType r.url = t))).length))))

/-- The country-selector callback update_request_type_chart (main.py
lines 186-192, dashboard.py lines 173-178): a pure read that filters the
precomputed cross-tab to the selected country; the chart construction
around it is an external rendering collaborator. -/
def update_request_type_chart (tc : List ((String × String) × Nat))
    (selected : String) : List ((String × String) × Nat) :=
  tc.filter (fun e => decide (e.1.1 = selected))

/-- Concrete row: a scheduled-demo request, no sale. -/
def demoRow : LogRecord :=
  { url := "/scheduledemo.php", country := "UK", status := 200, product := "", revenue := 0 }

/-- Concrete row: an unrecognised URL, no sale, product X recorded. -/
def zeroSaleRow : LogRecord :=
  { url := "/contact.php", country := "Germany", status := 200, product := "X", revenue := 0 }

/-- Concrete row: a sale of product A. -/
def saleRowA : LogRecord :=
  { url := "/aiassistant.php", country := "USA", status := 200, product := "A", revenue := 1 }

/-- Concrete row: a sale of product B. -/
def saleRowB : LogRecord :=
  { url := "/aiassistant.php", country := "USA", status := 200, product := "B", revenue := 1 }

/-- Concrete row: an AI-assistant request from the USA, no sale. -/
def usaAiRow : LogRecord :=
  { url := "/aiassistant.php", country := "USA", status := 200, product := "", revenue := 0 }

/-- Concrete row: an unrecognised URL from the UK, no sale. -/
def ukOtherRow : LogRecord :=
  { url := "/unknown.php", country := "UK", status := 404, product := "", revenue := 0 }

/-- Concrete row: a sale of product W from the USA. -/
def saleRowW : LogRecord :=
  { url := "/aiassistant.php", country := "USA", status := 200, product := "W", revenue := 100 }

/-! ### Library lemmas about the modelling combinators -/

theorem mem_uniqAux [DecidableEq α] (seen : List α) (l : List α) (x : α) :
    x ∈ uniqAux seen l ↔ x ∈ l ∧ x ∉ seen := by
  induction l generalizing seen with
  | nil => simp [uniqAux]
  | cons a l ih =>
    by_cases ha : a ∈ seen
    · simp only [uniqAux, if_pos ha, ih, List.mem_cons]
      constructor
      · rintro ⟨hx, hns⟩; exact ⟨Or.inr hx, hns⟩
      · rintro ⟨hx | hx, hns⟩
        · exact absurd (hx ▸ ha) hns
        · exact ⟨hx, hns⟩
    · by_cases hxa : x = a
      · subst hxa
        simp [uniqAux, if_neg ha, ha]
      · simp [uniqAux, if_neg ha, ih, hxa]

theorem nodup_uniqAux [DecidableEq α] (seen : List α) (l : List α) :
    (uniqAux seen l).Nodup := by
  induction l generalizing seen with
  | nil => simp [uniqAux]
  | cons a l ih =>
    by_cases ha : a ∈ seen
    · simpa [uniqAux, if_pos ha] using ih seen
    · simp only [uniqAux, if_neg ha, List.nodup_cons]
      refine ⟨fun h => ?_, ih (a :: seen)⟩
      exact ((mem_uniqAux _ _ _).mp h).2 (List.mem_cons_self _ _)

theorem mem_uniq [DecidableEq α] (l : List α) (x : α) : x ∈ uniq l ↔ x ∈ l := by
  simp [uniq, mem_uniqAux]

theorem nodup_uniq [DecidableEq α] (l : List α) : (uniq l).Nodup :=
  nodup_uniqAux [] l

theorem perm_insertDesc (x : α × Nat) (l : List (α × Nat)) :
    (insertDesc x l).Perm (x :: l) := by
  induction l with
  | nil => simp [insertDesc]
  | cons y l ih =>
    by_cases h : y.2 ≤ x.2
    · simp [insertDesc, if_pos h]
    · simp only [insertDesc, if_neg h]
      exact (List.Perm.cons y ih).trans (List.Perm.swap x y l)

theorem perm_sortDescByCount (l : List (α × Nat)) :
    (sortDescByCount l).Perm l := by
  induction l with
  | nil => simp [sortDescByCount]
  | cons x l ih =>
    exact (perm_insertDesc x (sortDescByCount l)).trans (List.Perm.cons x ih)

theorem perm_valueCounts [DecidableEq α] (l : List α) :
    (valueCounts l).Perm (valueCountsRaw l) :=
  perm_sortDescByCount _

theorem mem_valueCounts [DecidableEq α] (l : List α) (e : α × Nat) :
    e ∈ valueCounts l ↔ ∃ k, k ∈ l ∧ e = (k, countKey k l) := by
  rw [(perm_valueCounts l).mem_iff]
  simp only [valueCountsRaw, List.mem_map, mem_uniq]
  constructor
  · rintro ⟨k, hk, rfl⟩; exact ⟨k, hk, rfl⟩
  · rintro ⟨k, hk, rfl⟩; exact ⟨k, hk, rfl⟩

theorem sum_map_one (l : List α) : (l.map (fun _ => (1 : ℕ))).sum = l.length := by
  induction l with
  | nil => rfl
  | cons a l ih => simp [ih, Nat.add_comm]

theorem sum_map_filter_split [AddCommMonoid M] (p : α → Bool) (f : α → M) (l : List α) :
    ((l.filter p).map f).sum + ((l.filter (fun x => !p x)).map f).sum = (l.map f).sum := by
  induction l with
  | nil => simp
  | cons a l ih =>
    by_cases h : p a
    · simp [List.filter_cons, h, ← ih, add_assoc]
    · simp [List.filter_cons, h, ← ih, add_assoc, add_left_comm]

theorem filter_key_of_filter_ne [DecidableEq K] (key : α → K) (k k' : K) (hne : k' ≠ k)
    (l : List α) :
    l.filter (fun x => decide (key x = k')) =
      (l.filter (fun x => !(decide (key x = k)))).filter (fun x => decide (key x = k')) := by
  induction l with
  | nil => rfl
  | cons a l ih =>
    by_cases h : key a = k'
    · have hk : ¬ key a = k := by rw [h]; exact hne
      simp [List.filter_cons, h, hk, hne, ih]
    · by_cases h2 : key a = k
      · simp [List.filter_cons, h, h2, hne, Ne.symm hne, ih]
      · simp [List.filter_cons, h, h2, hne, ih]

theorem sum_map_groups [DecidableEq K] [AddCommMonoid M] (key : α → K) (f : α → M) :
    ∀ (keys : List K), keys.Nodup → ∀ (l : List α), (∀ x ∈ l, key x ∈ keys) →
      (keys.map (fun k => ((l.filter (fun x => decide (key x = k))).map f).sum)).sum
        = (l.map f).sum := by
  intro keys
  induction keys with
  | nil =>
    intro _ l hcov
    have hl : l = [] := List.eq_nil_iff_forall_not_mem.mpr
      (fun a ha => absurd (hcov a ha) (List.not_mem_nil (key a)))
    subst hl
    simp
  | cons k ks ih =>
    intro hnd l hcov
    have hkn : k ∉ ks := (List.nodup_cons.mp hnd).1
    have hnd2 : ks.Nodup := (List.nodup_cons.mp hnd).2
    have hcov2 : ∀ x ∈ l.filter (fun x => !(decide (key x = k))), key x ∈ ks := by
      intro x hx
      rcases List.mem_filter.mp hx with ⟨hxl, hb⟩
      have hne : ¬ key x = k := by simpa using hb
      rcases List.mem_cons.mp (hcov x hxl) with h | h
      · exact absurd h hne
      · exact h
    have hmain := ih hnd2 (l.filter (fun x => !(decide (key x = k)))) hcov2
    have hcong : ks.map (fun j => ((l.filter (fun x => decide (key x = j))).map f).sum)
        = ks.map (fun j => (((l.filter (fun x => !(decide (key x = k)))).filter
            (fun x => decide (key x = j))).map f).sum) := by
      apply List.map_congr_left
      intro j hj
      have hne : j ≠ k := fun h => hkn (h ▸ hj)
      rw [← filter_key_of_filter_ne key k j hne l]
    rw [List.map_cons, List.sum_cons, hcong, hmain]
    exact sum_map_filter_split (fun x => decide (key x = k)) f l

theorem length_groups [DecidableEq K] (key : α → K) (keys : List K) (hnd : keys.Nodup)
    (l : List α) (hcov : ∀ x ∈ l, key x ∈ keys) :
    (keys.map (fun k => (l.filter (fun x => decide (key x = k))).length)).sum = l.length := by
  have h := sum_map_groups key (fun _ => (1 : ℕ)) keys hnd l hcov
  simpa [sum_map_one] using h

theorem sum_counts_valueCounts [DecidableEq α] (l : List α) :
    ((valueCounts l).map (fun e => e.2)).sum = l.length := by
  have hperm : (valueCounts l).Perm (valueCountsRaw l) := perm_valueCounts l
  rw [(hperm.map (fun e => e.2)).sum_eq]
  have hmap : (valueCountsRaw l).map (fun e => e.2) = (uniq l).map (fun k => countKey k l) := by
    simp [valueCountsRaw, List.map_map]
  rw [hmap]
  simpa [countKey] using
    length_groups (fun x => x) (uniq l) (nodup_uniq l) l (fun x hx => (mem_uniq l x).mpr hx)

theorem foldl_max_mem (xs : List (α × Nat)) (b : α × Nat) :
    xs.foldl (fun c y => if c.2 < y.2 then y else c) b = b ∨
      xs.foldl (fun c y => if c.2 < y.2 then y else c) b ∈ xs := by
  induction xs generalizing b with
  | nil => exact Or.inl rfl
  | cons y xs ih =>
    simp only [List.foldl_cons]
    rcases ih (if b.2 < y.2 then y else b) with h | h
    · rw [h]
      by_cases hb : b.2 < y.2
      · right
        simp [hb]
      · left
        simp [hb]
    · right
      exact List.mem_cons_of_mem _ h

theorem foldl_max_ge (xs : List (α × Nat)) (b : α × Nat) :
    b.2 ≤ (xs.foldl (fun c y => if c.2 < y.2 then y else c) b).2 ∧
      ∀ z ∈ xs, z.2 ≤ (xs.foldl (fun c y => if c.2 < y.2 then y else c) b).2 := by
  induction xs generalizing b with
  | nil => exact ⟨le_refl _, by simp⟩
  | cons y xs ih =>
    simp only [List.foldl_cons]
    obtain ⟨h1, h2⟩ := ih (if b.2 < y.2 then y else b)
    constructor
    · by_cases hb : b.2 < y.2
      · exact le_trans (le_of_lt hb) (by simpa [hb] using h1)
      · simpa [hb] using h1
    · intro z hz
      rcases List.mem_cons.mp hz with rfl | hz2
      · by_cases hb : b.2 < z.2
        · simpa [hb] using h1
        · exact le_trans (le_of_not_lt hb) (by simpa [hb] using h1)
      · exact h2 z hz2

theorem sum_lt_sum_of_lt (f g : K → ℚ) :
    ∀ (l : List K), l ≠ [] → (∀ x ∈ l, f x < g x) →
      (l.map f).sum < (l.map g).sum := by
  intro l
  induction l with
  | nil => intro h; exact absurd rfl h
  | cons a l ih =>
    intro _ h
    cases l with
    | nil => simpa using h a (List.mem_cons_self a [])
    | cons b m =>
      have h1 : f a < g a := h a (List.mem_cons_self _ _)
      have h2 := ih (by simp) (fun x hx => h x (List.mem_cons_of_mem _ hx))
      simp only [List.map_cons, List.sum_cons] at h2 ⊢
      exact add_lt_add h1 h2

/-! ### Claim theorems -/

/-- C2: the RequestType classification is a pure total function of the
URL alone: every URL string receives one of the five labels, the five
named pages map to their stated labels (with /job.php and /prototype.php
both mapping to Job Request), and every other string maps to Other. -/
theorem C2_requestType_total_function :
    (∀ u : String, requestType u ∈
      ["AI Assistant", "Scheduled Demo", "Promotional Event", "Job Request", "Other"])
    ∧ requestType "/aiassistant.php" = "AI Assistant"
    ∧ requestType "/scheduledemo.php" = "Scheduled Demo"
    ∧ requestType "/event.php" = "Promotional Event"
    ∧ requestType "/job.php" = "Job Request"
    ∧ requestType "/prototype.php" = "Job Request"
    ∧ ∀ u : String,
        u ∉ ["/aiassistant.php", "/scheduledemo.php", "/event.php", "/job.php",
             "/prototype.php"] →
        requestType u = "Other" := by
  refine ⟨?_, rfl, rfl, rfl, rfl, rfl, ?_⟩
  · intro u
    unfold requestType
    split_ifs <;> simp
  · intro u hu
    simp only [List.mem_cons, List.not_mem_nil, or_false, not_or] at hu
    obtain ⟨h1, h2, h3, h4, h5⟩ := hu
    simp [requestType, h1, h2, h3, h4, h5]

/-- Witness for C2: a URL outside the five known pages classifies as
Other. -/
theorem C2_witness : requestType "/pricing.html" = "Other" :=
  C2_requestType_total_function.2.2.2.2.2.2 "/pricing.html" (by decide)

/-- C6 counterexample: at the boundary count 500 the code produces the
label with a leading pictogram, not the bare string the claim names (the
same holds for all three labels). -/
theorem C6_counterexample :
    demoAction 500 = "📄 Translate Page" ∧ demoAction 500 ≠ "Translate Page" := by
  constructor
  · rfl
  · decide

/-- C6 amended: with the pictogram-prefixed labels the code actually
uses, the thresholds behave exactly as claimed: a count above 1000 gives
the webinar label, a count in (500, 1000] the email-campaign label, and
a count of at most 500 the translate-page label. -/
theorem C6_demoAction_thresholds (n : Nat) :
    (1000 < n → demoAction n = "💡 Webinar")
    ∧ (500 < n → n ≤ 1000 → demoAction n = "📧 Email Campaign")
    ∧ (n ≤ 500 → demoAction n = "📄 Translate Page") := by
  refine ⟨fun h => ?_, fun h1 h2 => ?_, fun h => ?_⟩
  · simp [demoAction, h]
  · have hx : ¬ 1000 < n := by omega
    simp [demoAction, hx, h1]
  · have h1 : ¬ 1000 < n := by omega
    have h2 : ¬ 500 < n := by omega
    simp [demoAction, h1, h2]

/-- Witness for C6 at the boundary counts 500, 501, 1000 and 1001. -/
theorem C6_witness :
    demoAction 500 = "📄 Translate Page" ∧ demoAction 501 = "📧 Email Campaign"
    ∧ demoAction 1000 = "📧 Email Campaign" ∧ demoAction 1001 = "💡 Webinar" :=
  ⟨(C6_demoAction_thresholds 500).2.2 (by omega),
   (C6_demoAction_thresholds 501).2.1 (by omega) (by omega),
   (C6_demoAction_thresholds 1000).2.1 (by omega) (by omega),
   (C6_demoAction_thresholds 1001).1 (by omega)⟩

/-- C4: on a table with no positive-revenue record, the average-sale-value
computation yields the NaN sentinel (none, as the claim requires) but the
top-product computation raises the ValueError of idxmax on an empty
series instead of producing a sentinel: the code contradicts the
documented error-handling policy for empty aggregates. -/
theorem C4_empty_aggregate_behaviour :
    avg_sale_value [zeroSaleRow] = none
    ∧ top_product [zeroSaleRow]
        = Except.error "attempt to get argmax of an empty sequence" := by
  constructor
  · rfl
  · rfl

/-- C1 counterexample: main.py builds its job-page distribution from the
rows with RequestType Job Request (URLs /job.php and /prototype.php
only); on a table holding one /scheduledemo.php row its counts sum to 0,
while the five-element job-page set matches 1 row. -/
theorem C1_counterexample :
    ((job_counts_main [demoRow]).map (fun e => e.2)).sum = 0
    ∧ ([demoRow].filter (fun r => decide (r.url ∈ job_pages))).length = 1 := by
  constructor
  · rfl
  · rfl

/-- C1 amended: dashboard.py and ai_solutions_sales.py restrict the
job-page distribution to the five job pages and count per exact URL, so
their counts are the exact per-URL occurrence numbers and sum to the
number of rows whose URL lies in the five-element set; main.py instead
restricts to the Job Request classification, i.e. exactly the URLs
/job.php and /prototype.php, so its counts sum to the number of rows in
that two-element set. -/
theorem C1_job_page_distribution (df : List LogRecord) :
    ((job_counts_dashboard df).map (fun e => e.2)).sum
        = (df.filter (fun r => decide (r.url ∈ job_pages))).length
    ∧ (∀ e ∈ job_counts_dashboard df,
        e.1 ∈ job_pages ∧
        e.2 = countKey e.1
          ((df.filter (fun r => decide (r.url ∈ job_pages))).map (fun r => r.url)))
    ∧ ((job_counts_main df).map (fun e => e.2)).sum
        = (df.filter (fun r => decide (requestType r.url = "Job Request"))).length
    ∧ (∀ u : String, requestType u = "Job Request" ↔
        (u = "/job.php" ∨ u = "/prototype.php")) := by
  refine ⟨?_, ?_, ?_, ?_⟩
  · rw [job_counts_dashboard, sum_counts_valueCounts, List.length_map]
  · intro e he
    rw [job_counts_dashboard, mem_valueCounts] at he
    obtain ⟨k, hk, rfl⟩ := he
    rcases List.mem_map.mp hk with ⟨r, hr, rfl⟩
    rcases List.mem_filter.mp hr with ⟨hrdf, hrb⟩
    exact ⟨by simpa using hrb, rfl⟩
  · rw [job_counts_main, sum_counts_valueCounts, List.length_map]
  · intro u
    constructor
    · intro he
      unfold requestType at he
      split_ifs at he with h1 h2 h3 h4
      · exact absurd he (by decide)
      · exact absurd he (by decide)
      · exact absurd he (by decide)
      · exact h4
      · exact absurd he (by decide)
    · rintro (rfl | rfl)
      · rfl
      · rfl

/-- Witness for C1 on a one-row table: the dashboard variant counts the
scheduled-demo row inside the five-page set. -/
theorem C1_witness :
    ((job_counts_dashboard [demoRow]).map (fun e => e.2)).sum
        = ([demoRow].filter (fun r => decide (r.url ∈ job_pages))).length
    ∧ ("/scheduledemo.php", 1) ∈ job_counts_dashboard [demoRow]
    ∧ ("/scheduledemo.php", 1).1 ∈ job_pages :=
  ⟨(C1_job_page_distribution [demoRow]).1,
   by decide,
   ((C1_job_page_distribution [demoRow]).2.1 ("/scheduledemo.php", 1) (by decide)).1⟩

/-- C3 counterexample: ai_solutions_sales.py aggregates Revenue by
Product over the FULL table; a single zero-revenue row with Product X
contributes the group (X, 0), although the positive-revenue restriction
of that table is empty. -/
theorem C3_counterexample :
    product_sales_ais [zeroSaleRow] = [("X", 0)]
    ∧ positiveSales [zeroSaleRow] = [] := by
  constructor
  · simp [product_sales_ais, groupKeys, uniq, uniqAux, zeroSaleRow]
  · rfl

/-- The sum of Revenue over all rows equals the sum over the
positive-revenue rows whenever no Revenue is negative (zero rows
contribute nothing). -/
theorem sum_revenue_nonneg_eq (df : List LogRecord)
    (h : ∀ r ∈ df, 0 ≤ r.revenue) :
    total_revenue df = ((positiveSales df).map (fun r => r.revenue)).sum := by
  induction df with
  | nil => rfl
  | cons r df ih =>
    have hr := h r (List.mem_cons_self _ _)
    have ih2 := ih (fun x hx => h x (List.mem_cons_of_mem _ hx))
    by_cases hp : 0 < r.revenue
    · simp only [total_revenue, positiveSales, List.filter_cons, List.map_cons,
        List.sum_cons] at ih2 ⊢
      simp [hp, ih2]
    · have h0 : r.revenue = 0 := le_antisymm (not_lt.mp hp) hr
      simp only [total_revenue, positiveSales, List.filter_cons, List.map_cons,
        List.sum_cons] at ih2 ⊢
      simp [hp, h0, ih2]

/-- C8: when every Revenue value is zero or positive, total_revenue (the
sum of Revenue over all records) equals the sum of Revenue over only the
positive-revenue records. -/
theorem C8_total_revenue_eq_positive_sum (df : List LogRecord)
    (h : ∀ r ∈ df, 0 ≤ r.revenue) :
    total_revenue df = ((positiveSales df).map (fun r => r.revenue)).sum :=
  sum_revenue_nonneg_eq df h

/-- Witness for C8 on a two-row table with revenues 1 and 0. -/
theorem C8_witness :
    (∀ r ∈ [saleRowA, demoRow], 0 ≤ r.revenue)
    ∧ total_revenue [saleRowA, demoRow]
        = ((positiveSales [saleRowA, demoRow]).map (fun r => r.revenue)).sum :=
  ⟨by decide, C8_total_revenue_eq_positive_sum [saleRowA, demoRow] (by decide)⟩

/-- C5 counterexample: two positive-revenue rows, product B then product
A, tie with one sale each; the code selects B (value_counts keeps tied
counts in first-occurrence order under its stable descending sort and
idxmax takes the first), while the claimed tie-break by the standard
sorted order of product names selects A. -/
theorem C5_counterexample :
    top_product [saleRowB, saleRowA] = Except.ok "B"
    ∧ top_product [saleRowB, saleRowA] ≠ Except.ok "A" := by
  constructor
  · rfl
  · intro h
    have : "B" = "A" := by
      have h2 : Except.ok (ε := String) "B" = Except.ok "A" := by
        rw [← h]
        rfl
      exact Except.ok.inj h2
    exact absurd this (by decide)

/-- C3 amended: in main.py and dashboard.py the sales_by_product and
sales_by_country tables are computed from the positive-revenue rows only
(every group key stems from a positive-revenue row) and their per-group
revenue sums add up to the total over the positive-revenue rows;
ai_solutions_sales.py groups the FULL table, so a zero-revenue row can
contribute a group (see the counterexample), but its per-group sums add
up to the whole-table total, which coincides with the positive-revenue
total whenever no Revenue value is negative. -/
theorem C3_revenue_aggregates (df : List LogRecord) :
    ((sales_by_product df).map (fun e => e.totalRevenue)).sum
        = ((positiveSales df).map (fun r => r.revenue)).sum
    ∧ ((sales_by_country df).map (fun e => e.totalRevenue)).sum
        = ((positiveSales df).map (fun r => r.revenue)).sum
    ∧ (∀ e ∈ sales_by_product df, ∃ r ∈ positiveSales df, r.product = e.product)
    ∧ (∀ e ∈ sales_by_country df, ∃ r ∈ positiveSales df, r.country = e.country)
    ∧ ((product_sales_ais df).map (fun e => e.2)).sum = total_revenue df
    ∧ ((sales_by_country_ais df).map (fun e => e.2)).sum = total_revenue df
    ∧ ((∀ r ∈ df, 0 ≤ r.revenue) →
        total_revenue df = ((positiveSales df).map (fun r => r.revenue)).sum) := by
  refine ⟨?_, ?_, ?_, ?_, ?_, ?_, sum_revenue_nonneg_eq df⟩
  · have hmap : (sales_by_product df).map (fun e => e.totalRevenue)
        = (groupKeys (fun r => r.product) (positiveSales df)).map
            (fun k => (((positiveSales df).filter (fun r => decide (r.product = k))).map
              (fun r => r.revenue)).sum) := by
      simp [sales_by_product, List.map_map, Function.comp]
    rw [hmap]
    refine sum_map_groups _ _ _ (nodup_uniq _) _ ?_
    intro x hx
    exact (mem_uniq _ _).mpr (List.mem_map_of_mem _ hx)
  · have hmap : (sales_by_country df).map (fun e => e.totalRevenue)
        = (groupKeys (fun r => r.country) (positiveSales df)).map
            (fun k => (((positiveSales df).filter (fun r => decide (r.country = k))).map
              (fun r => r.revenue)).sum) := by
      simp [sales_by_country, List.map_map, Function.comp]
    rw [hmap]
    refine sum_map_groups _ _ _ (nodup_uniq _) _ ?_
    intro x hx
    exact (mem_uniq _ _).mpr (List.mem_map_of_mem _ hx)
  · intro e he
    simp only [sales_by_product] at he
    rcases List.mem_map.mp he with ⟨k, hk, rfl⟩
    rcases List.mem_map.mp ((mem_uniq _ _).mp hk) with ⟨r, hr, hrk⟩
    exact ⟨r, hr, hrk⟩
  · intro e he
    simp only [sales_by_country] at he
    rcases List.mem_map.mp he with ⟨k, hk, rfl⟩
    rcases List.mem_map.mp ((mem_uniq _ _).mp hk) with ⟨r, hr, hrk⟩
    exact ⟨r, hr, hrk⟩
  · have hmap : (product_sales_ais df).map (fun e => e.2)
        = (groupKeys (fun r => r.product) df).map
            (fun k => ((df.filter (fun r => decide (r.product = k))).map
              (fun r => r.revenue)).sum) := by
      simp [product_sales_ais, List.map_map, Function.comp]
    rw [hmap, total_revenue]
    refine sum_map_groups _ _ _ (nodup_uniq _) _ ?_
    intro x hx
    exact (mem_uniq _ _).mpr (List.mem_map_of_mem _ hx)
  · have hmap : (sales_by_country_ais df).map (fun e => e.2)
        = (groupKeys (fun r => r.country) df).map
            (fun k => ((df.filter (fun r => decide (r.country = k))).map
              (fun r => r.revenue)).sum) := by
      simp [sales_by_country_ais, List.map_map, Function.comp]
    rw [hmap, total_revenue]
    refine sum_map_groups _ _ _ (nodup_uniq _) _ ?_
    intro x hx
    exact (mem_uniq _ _).mpr (List.mem_map_of_mem _ hx)

/-- Witness for C3 on a table with one sale and one zero-revenue row. -/
theorem C3_witness :
    ((sales_by_product [saleRowA, zeroSaleRow]).map (fun e => e.totalRevenue)).sum
        = ((positiveSales [saleRowA, zeroSaleRow]).map (fun r => r.revenue)).sum
    ∧ total_revenue [saleRowA, zeroSaleRow]
        = ((positiveSales [saleRowA, zeroSaleRow]).map (fun r => r.revenue)).sum :=
  ⟨(C3_revenue_aggregates [saleRowA, zeroSaleRow]).1,
   (C3_revenue_aggregates [saleRowA, zeroSaleRow]).2.2.2.2.2.2 (by decide)⟩

/-- C7 counterexample: ai_solutions_sales.py unstacks and zero-fills its
Country by RequestType cross-tab; on a two-row table the cells (USA,
Other) and (UK, AI Assistant) match zero records yet are present with
value 0 — empty groups are synthesized as zeros, not omitted. -/
theorem C7_counterexample :
    type_country_unstack [usaAiRow, ukOtherRow]
      = [("USA", [("AI Assistant", 1), ("Other", 0)]),
         ("UK", [("AI Assistant", 0), ("Other", 1)])]
    ∧ ([usaAiRow, ukOtherRow].filter
        (fun r => decide (r.country = "USA" ∧ requestType r.url = "Other"))).length = 0 := by
  constructor
  · rfl
  · rfl

/-- C7 amended: the long-format group-bys (the Country by RequestType
cross-tab of main.py and dashboard.py, and sales_by_product) list every
key value observed in their restricted source exactly once and contain
no group with zero matching records; the unstacked zero-filled cross-tab
of ai_solutions_sales.py, by contrast, synthesizes zero cells for
unobserved (Country, RequestType) combinations (see the
counterexample). -/
theorem C7_group_keys_exact (df : List LogRecord) :
    ((type_country df).map (fun e => e.1)).Nodup
    ∧ (∀ k : String × String,
        (∃ e ∈ type_country df, e.1 = k) ↔ ∃ r ∈ df, (r.country, requestType r.url) = k)
    ∧ (∀ e ∈ type_country df, 0 < e.2)
    ∧ ((sales_by_product df).map (fun e => e.product)).Nodup
    ∧ (∀ e ∈ sales_by_product df, 0 < e.countSales) := by
  refine ⟨?_, ?_, ?_, ?_, ?_⟩
  · have hmap : (type_country df).map (fun e => e.1)
        = uniq (df.map (fun r => (r.country, requestType r.url))) := by
      simp only [type_country, List.map_map]
      exact List.map_id _
    rw [hmap]
    exact nodup_uniq _
  · intro k
    constructor
    · rintro ⟨e, he, rfl⟩
      simp only [type_country] at he
      rcases List.mem_map.mp he with ⟨j, hj, rfl⟩
      rcases List.mem_map.mp ((mem_uniq _ _).mp hj) with ⟨r, hr, hrj⟩
      exact ⟨r, hr, hrj⟩
    · rintro ⟨r, hr, rfl⟩
      refine ⟨((r.country, requestType r.url),
        (df.filter (fun x => decide ((x.country, requestType x.url)
          = (r.country, requestType r.url)))).length), ?_, rfl⟩
      simp only [type_country]
      exact List.mem_map.mpr ⟨(r.country, requestType r.url),
        (mem_uniq _ _).mpr (List.mem_map_of_mem _ hr), rfl⟩
  · intro e he
    simp only [type_country] at he
    rcases List.mem_map.mp he with ⟨j, hj, rfl⟩
    rcases List.mem_map.mp ((mem_uniq _ _).mp hj) with ⟨r, hr, hrj⟩
    have hrmem : r ∈ df.filter (fun x => decide ((x.country, requestType x.url) = j)) :=
      List.mem_filter.mpr ⟨hr, by simp [hrj]⟩
    exact List.length_pos.mpr (List.ne_nil_of_mem hrmem)
  · have hmap : (sales_by_product df).map (fun e => e.product)
        = uniq ((positiveSales df).map (fun r => r.product)) := by
      simp only [sales_by_product, groupKeys, List.map_map]
      exact List.map_id _
    rw [hmap]
    exact nodup_uniq _
  · intro e he
    simp only [sales_by_product] at he
    rcases List.mem_map.mp he with ⟨k, hk, rfl⟩
    rcases List.mem_map.mp ((mem_uniq _ _).mp hk) with ⟨r, hr, hrk⟩
    have hrmem : r ∈ (positiveSales df).filter (fun x => decide (x.product = k)) :=
      List.mem_filter.mpr ⟨hr, by simp [hrk]⟩
    exact List.length_pos.mpr (List.ne_nil_of_mem hrmem)

/-- Witness for C7 on a concrete two-row table. -/
theorem C7_witness :
    ((type_country [usaAiRow, ukOtherRow]).map (fun e => e.1)).Nodup
    ∧ (∃ e ∈ type_country [usaAiRow, ukOtherRow], e.1 = ("USA", "AI Assistant")) :=
  ⟨(C7_group_keys_exact [usaAiRow, ukOtherRow]).1,
   ((C7_group_keys_exact [usaAiRow, ukOtherRow]).2.1 ("USA", "AI Assistant")).mpr
     (by decide)⟩

/-- C9: the country-selector callback is a pure filter over the
precomputed cross-tab: a row is returned exactly when it is a cross-tab
row whose Country equals the selection, and a selection matching no
record of the table yields the empty list rather than an error.  (In the
embedding the callback is a total function of its inputs; it returns a
new list and leaves the cross-tab untouched.) -/
theorem C9_country_filter_callback (df : List LogRecord) (selected : String) :
    (∀ e, e ∈ update_request_type_chart (type_country df) selected
        ↔ (e ∈ type_country df ∧ e.1.1 = selected))
    ∧ ((∀ r ∈ df, r.country ≠ selected) →
        update_request_type_chart (type_country df) selected = []) := by
  constructor
  · intro e
    simp [update_request_type_chart, List.mem_filter]
  · intro hnone
    rw [update_request_type_chart, List.filter_eq_nil_iff]
    intro e he
    simp only [type_country] at he
    rcases List.mem_map.mp he with ⟨j, hj, rfl⟩
    rcases List.mem_map.mp ((mem_uniq _ _).mp hj) with ⟨r, hr, hrj⟩
    have hc : j.1 = r.country := by rw [← hrj]
    simp [hc, hnone r hr]

/-- Witness for C9: filtering a concrete cross-tab by the present
country USA returns its row, and by the absent country France returns
the empty list. -/
theorem C9_witness :
    ((("USA", "AI Assistant"), 1)
        ∈ update_request_type_chart (type_country [usaAiRow, ukOtherRow]) "USA")
    ∧ update_request_type_chart (type_country [usaAiRow, ukOtherRow]) "France" = [] :=
  ⟨((C9_country_filter_callback [usaAiRow, ukOtherRow] "USA").1
      (("USA", "AI Assistant"), 1)).mpr (by decide),
   (C9_country_filter_callback [usaAiRow, ukOtherRow] "France").2 (by decide)⟩

/-- C5 amended: with at least one positive-revenue record, top_product
returns a product attaining the maximal count of positive-revenue rows;
ties, however, are broken by first-occurrence order of the tied products
among the positive-revenue rows (the stable descending count sort keeps
tied counts in first-seen order and idxmax takes the first entry), not
by the sorted order of product names (see the counterexample). -/
theorem C5_top_product_attains_max (df : List LogRecord)
    (h : positiveSales df ≠ []) :
    ∃ p, top_product df = Except.ok p
      ∧ p ∈ (positiveSales df).map (fun r => r.product)
      ∧ ∀ q ∈ (positiveSales df).map (fun r => r.product),
          countKey q ((positiveSales df).map (fun r => r.product))
            ≤ countKey p ((positiveSales df).map (fun r => r.product)) := by
  set l := (positiveSales df).map (fun r => r.product) with hl
  have hlne : l ≠ [] := by
    intro hnil
    rw [hl] at hnil
    exact h (by simpa using hnil)
  have hvcne : valueCounts l ≠ [] := by
    intro hnil
    obtain ⟨a, ha⟩ := List.exists_mem_of_ne_nil l hlne
    have hmem : (a, countKey a l) ∈ valueCounts l := (mem_valueCounts l _).mpr ⟨a, ha, rfl⟩
    rw [hnil] at hmem
    exact absurd hmem (List.not_mem_nil _)
  obtain ⟨x, xs, hvc⟩ := List.exists_cons_of_ne_nil hvcne
  obtain ⟨b, hbdef⟩ : ∃ b, xs.foldl (fun c y => if c.2 < y.2 then y else c) x = b := ⟨_, rfl⟩
  have hmemcase := foldl_max_mem xs x
  have hge := foldl_max_ge xs x
  rw [hbdef] at hmemcase hge
  have htop0 : top_product df = idxmax (valueCounts l) := by
    rw [hl]
    rfl
  have hbmem : b ∈ valueCounts l := by
    rw [hvc]
    rcases hmemcase with rfl | hcase
    · exact List.mem_cons_self _ _
    · exact List.mem_cons_of_mem _ hcase
  obtain ⟨p, hpl, hbp⟩ := (mem_valueCounts l b).mp hbmem
  refine ⟨p, ?_, hpl, ?_⟩
  · rw [htop0, hvc]
    simp only [idxmax]
    rw [hbdef, hbp]
  · intro q hql
    have hq : (q, countKey q l) ∈ valueCounts l := (mem_valueCounts l _).mpr ⟨q, hql, rfl⟩
    rw [hvc] at hq
    have hle : (q, countKey q l).2 ≤ b.2 := by
      rcases List.mem_cons.mp hq with heq | hmem
      · rw [heq]
        exact hge.1
      · exact hge.2 _ hmem
    have hb2 : b.2 = countKey p l := by rw [hbp]
    simpa [hb2] using hle

/-- Witness for C5 on a one-row table with a single sale. -/
theorem C5_witness :
    ∃ p, top_product [saleRowA] = Except.ok p
      ∧ p ∈ (positiveSales [saleRowA]).map (fun r => r.product)
      ∧ ∀ q ∈ (positiveSales [saleRowA]).map (fun r => r.product),
          countKey q ((positiveSales [saleRowA]).map (fun r => r.product))
            ≤ countKey p ((positiveSales [saleRowA]).map (fun r => r.product)) :=
  C5_top_product_attains_max [saleRowA] (by decide)

/-- A nonempty record list always contains, under any string key, a
group whose mean revenue reaches the global mean: the global mean is the
record-count-weighted mean of the group means. -/
theorem exists_group_mean_ge (key : LogRecord → String) (s : List LogRecord)
    (h : s ≠ []) :
    ∃ k ∈ uniq (s.map key),
      (s.map (fun r => r.revenue)).sum / (s.length : ℚ)
        ≤ ((s.filter (fun r => decide (key r = k))).map (fun r => r.revenue)).sum
          / ((s.filter (fun r => decide (key r = k))).length : ℚ) := by
  classical
  by_contra hno
  push_neg at hno
  have hNpos : 0 < s.length := List.length_pos.mpr h
  have hNQ : (0 : ℚ) < (s.length : ℚ) := by exact_mod_cast hNpos
  have hcov : ∀ x ∈ s, key x ∈ uniq (s.map key) :=
    fun x hx => (mem_uniq _ _).mpr (List.mem_map_of_mem _ hx)
  have hkeysne : uniq (s.map key) ≠ [] := by
    obtain ⟨r, hr⟩ := List.exists_mem_of_ne_nil s h
    exact List.ne_nil_of_mem (hcov r hr)
  have hlt : ∀ k ∈ uniq (s.map key),
      ((s.filter (fun r => decide (key r = k))).map (fun r => r.revenue)).sum
          * (s.length : ℚ)
        < (s.map (fun r => r.revenue)).sum
          * (((s.filter (fun r => decide (key r = k))).length : ℕ) : ℚ) := by
    intro k hk
    have hgrp : s.filter (fun r => decide (key r = k)) ≠ [] := by
      rcases List.mem_map.mp ((mem_uniq _ _).mp hk) with ⟨r, hr, hrk⟩
      exact List.ne_nil_of_mem (List.mem_filter.mpr ⟨hr, by simp [hrk]⟩)
    have hnQ : (0 : ℚ) < ((s.filter (fun r => decide (key r = k))).length : ℚ) := by
      exact_mod_cast List.length_pos.mpr hgrp
    exact (div_lt_div_iff₀ hnQ hNQ).mp (hno k hk)
  have hsum := sum_lt_sum_of_lt
      (fun k => ((s.filter (fun r => decide (key r = k))).map (fun r => r.revenue)).sum
        * (s.length : ℚ))
      (fun k => (s.map (fun r => r.revenue)).sum
        * (((s.filter (fun r => decide (key r = k))).length : ℕ) : ℚ))
      (uniq (s.map key)) hkeysne hlt
  have hleft : ((uniq (s.map key)).map
      (fun k => ((s.filter (fun r => decide (key r = k))).map (fun r => r.revenue)).sum
        * (s.length : ℚ))).sum
      = (s.map (fun r => r.revenue)).sum * (s.length : ℚ) := by
    rw [List.sum_map_mul_right]
    rw [sum_map_groups key (fun r => r.revenue) _ (nodup_uniq _) _ hcov]
  have hlen := length_groups key (uniq (s.map key)) (nodup_uniq _) s hcov
  have hcast : ((uniq (s.map key)).map
      (fun k => (((s.filter (fun r => decide (key r = k))).length : ℕ) : ℚ))).sum
      = ((s.length : ℕ) : ℚ) := by
    rw [← hlen, Nat.cast_list_sum, List.map_map]
    rfl
  have hright : ((uniq (s.map key)).map
      (fun k => (s.map (fun r => r.revenue)).sum
        * (((s.filter (fun r => decide (key r = k))).length : ℕ) : ℚ))).sum
      = (s.map (fun r => r.revenue)).sum * (s.length : ℚ) := by
    rw [List.sum_map_mul_left, hcast]
  rw [hleft, hright] at hsum
  exact lt_irrefl _ hsum

/-- Definitional unfolding of sales_by_product into its per-key entries. -/
theorem sales_by_product_entries (df : List LogRecord) :
    sales_by_product df = (groupKeys (fun r => r.product) (positiveSales df)).map
      (fun k =>
        { product := k
          totalRevenue := (((positiveSales df).filter (fun r => decide (r.product = k))).map
            (fun r => r.revenue)).sum
          countSales := ((positiveSales df).filter (fun r => decide (r.product = k))).length
          avgSaleValue := (((positiveSales df).filter (fun r => decide (r.product = k))).map
              (fun r => r.revenue)).sum
            / (((positiveSales df).filter (fun r => decide (r.product = k))).length : ℚ)
          color := match avg_sale_value df with
            | some ga => if ga ≤ (((positiveSales df).filter
                  (fun r => decide (r.product = k))).map (fun r => r.revenue)).sum
                / (((positiveSales df).filter (fun r => decide (r.product = k))).length : ℚ)
              then "green" else "red"
            | none => "red" }) := rfl

/-- C10: whenever at least one positive-revenue record exists, at least
one row of sales_by_product is coloured green, because the global
average sale value is the record-count-weighted mean of the per-product
average sale values, so some per-product mean reaches it. -/
theorem C10_some_product_green (df : List LogRecord) (h : positiveSales df ≠ []) :
    ∃ e ∈ sales_by_product df, e.color = "green" := by
  have hempty : (positiveSales df).isEmpty = false := by
    cases hcase : positiveSales df with
    | nil => exact absurd hcase h
    | cons a t => rfl
  have hg : avg_sale_value df
      = some (((positiveSales df).map (fun r => r.revenue)).sum
          / ((positiveSales df).length : ℚ)) := by
    simp [avg_sale_value, hempty]
  obtain ⟨k, hk, hge⟩ := exists_group_mean_ge (fun r => r.product) (positiveSales df) h
  rw [sales_by_product_entries]
  refine ⟨_, List.mem_map.mpr ⟨k, hk, rfl⟩, ?_⟩
  · show (match avg_sale_value df with
        | some ga =>
          if ga ≤ (((positiveSales df).filter (fun r => decide (r.product = k))).map
              (fun r => r.revenue)).sum
            / (((positiveSales df).filter (fun r => decide (r.product = k))).length : ℚ)
          then "green" else "red"
        | none => "red") = "green"
    rw [hg]
    exact if_pos hge

/-- Witness for C10 on a one-row table with a single sale. -/
theorem C10_witness :
    ∃ e ∈ sales_by_product [saleRowA], e.color = "green" :=
  C10_some_product_green [saleRowA] (by decide)
